import Mathlib

/-!
Shallow embedding of the snet protocol engine (a reliable-UDP transport
library written in C) together with proofs checking its natural-language
specification against the code.

Machine integers are modelled as `Nat` with explicit reduction modulo
`2^32` (resp. `2^16`) exactly where the C code's fixed-width arithmetic
wraps.  Every definition is translated from the corresponding C function
in `src/snet/`; definitions whose names start with `spec_` instead render
a sentence of the specification, to be compared with the code-derived
definition.
-/

namespace SNet

/-- `2^32`, the modulus of the C type `snet_uint32`. -/
def U32 : Nat := 4294967296

/-- `2^16`, the modulus of the C type `snet_uint16`. -/
def U16 : Nat := 65536

/-- Unsigned 32-bit subtraction `(a - b) mod 2^32`, as performed by C on
`snet_uint32` operands (both arguments first reduced mod `2^32`). -/
def sub32 (a b : Nat) : Nat := (a % U32 + (U32 - b % U32)) % U32

/-- `SNET_TIME_OVERFLOW` from `time.h`: one day in milliseconds. -/
def SNET_TIME_OVERFLOW : Nat := 86400000

/-- `SNET_TIME_LESS(a, b)` from `time.h`: `(a) - (b) >= SNET_TIME_OVERFLOW`
on 32-bit operands. -/
def snet_time_less (a b : Nat) : Bool := decide (sub32 a b ≥ SNET_TIME_OVERFLOW)

/-- `SNET_TIME_GREATER_EQUAL(a, b)` from `time.h`: `!SNET_TIME_LESS(a, b)`. -/
def snet_time_greater_equal (a b : Nat) : Bool := ! snet_time_less a b

/-- `SNET_TIME_DIFFERENCE(a, b)` from `time.h`:
`((a) - (b) >= SNET_TIME_OVERFLOW ? (b) - (a) : (a) - (b))` on 32-bit
operands. -/
def snet_time_difference (a b : Nat) : Nat :=
  if sub32 a b ≥ SNET_TIME_OVERFLOW then sub32 b a else sub32 a b

theorem sub32_lt (a b : Nat) : sub32 a b < U32 := by
  unfold sub32
  exact Nat.mod_lt _ (by decide)

theorem sub32_antisym (a b : Nat) (h : sub32 a b ≠ 0) :
    sub32 a b + sub32 b a = U32 := by
  unfold sub32 at h ⊢
  unfold U32 at h ⊢
  omega

/-- C7 counterexample: at `a = 86400000`, `b = 0` the macro returns
`(b - a) mod 2^32 = 4208567296`, the larger of the two modular
differences, not the smaller. -/
theorem snet_time_difference_not_min :
    ¬ snet_time_difference 86400000 0 =
      min (sub32 86400000 0) (sub32 0 86400000) := by
  decide

/-- C7 (amended): for 32-bit times `a` and `b`, `SNET_TIME_DIFFERENCE(a, b)`
returns the smaller of `a - b` and `b - a` (both mod `2^32`) provided that
smaller difference is below the overflow constant `86400000`; when both
modular differences reach the constant it returns `(b - a) mod 2^32`,
which can be the larger. -/
theorem snet_time_difference_min (a b : Nat)
    (h : min (sub32 a b) (sub32 b a) < SNET_TIME_OVERFLOW) :
    snet_time_difference a b = min (sub32 a b) (sub32 b a) := by
  unfold snet_time_difference
  by_cases h0 : sub32 a b = 0
  · have h1 : sub32 b a = 0 := by
      unfold sub32 at h0 ⊢
      unfold U32 at h0 ⊢
      omega
    simp [h0, h1]
  · have hsum := sub32_antisym a b h0
    have hlt := sub32_lt a b
    have hlt2 := sub32_lt b a
    unfold SNET_TIME_OVERFLOW at h ⊢
    unfold U32 at hsum hlt hlt2
    split
    · omega
    · omega

/-- C7 witness: a concrete application of the amended theorem. -/
theorem snet_time_difference_min_witness :
    snet_time_difference 5 3 = min (sub32 5 3) (sub32 3 5) :=
  snet_time_difference_min 5 3 (by decide)

/-! ## Per-peer throttle adaptation (`snet_peer_throttle`, peer.c) -/

/-- State read and written by `snet_peer_throttle` (fields of `SNetPeer`;
all are `snet_uint32` in the source). -/
structure ThrottlePeer where
  packetThrottle : Nat
  packetThrottleLimit : Nat
  packetThrottleAcceleration : Nat
  packetThrottleDeceleration : Nat
  lastRoundTripTime : Nat
  lastRoundTripTimeVariance : Nat
  deriving Repr, DecidableEq

/-- `snet_peer_throttle` from peer.c lines 61-90, translated
branch-for-branch; additions wrap modulo `2^32` as on `snet_uint32`. -/
def snet_peer_throttle (peer : ThrottlePeer) (rtt : Nat) : ThrottlePeer × Int :=
  if peer.lastRoundTripTime ≤ peer.lastRoundTripTimeVariance then
    ({ peer with packetThrottle := peer.packetThrottleLimit }, 0)
  else if rtt < peer.lastRoundTripTime then
    let t := (peer.packetThrottle + peer.packetThrottleAcceleration) % U32
    ({ peer with packetThrottle :=
        if t > peer.packetThrottleLimit then peer.packetThrottleLimit else t }, 1)
  else if rtt > (peer.lastRoundTripTime + 2 * peer.lastRoundTripTimeVariance) % U32 then
    ({ peer with packetThrottle :=
        if peer.packetThrottle > peer.packetThrottleDeceleration then
          peer.packetThrottle - peer.packetThrottleDeceleration
        else 0 }, -1)
  else
    (peer, 0)

/-- Rendering of spec section 4.10: `throttle = throttleLimit` when
`lastRTT ≤ lastVar`; `min(throttle + acceleration, throttleLimit)` with
return `+1` on a fast sample; `max(throttle - deceleration, 0)` with
return `-1` on a slow sample; unchanged with return `0` otherwise. -/
def spec_peer_throttle (peer : ThrottlePeer) (rtt : Nat) : ThrottlePeer × Int :=
  if peer.lastRoundTripTime ≤ peer.lastRoundTripTimeVariance then
    ({ peer with packetThrottle := peer.packetThrottleLimit }, 0)
  else if rtt < peer.lastRoundTripTime then
    ({ peer with packetThrottle := min ((peer.packetThrottle + peer.packetThrottleAcceleration) % U32) peer.packetThrottleLimit }, 1)
  else if rtt > (peer.lastRoundTripTime + 2 * peer.lastRoundTripTimeVariance) % U32 then
    ({ peer with packetThrottle := (max ((peer.packetThrottle : Int) - (peer.packetThrottleDeceleration : Int)) 0).toNat }, -1)
  else
    (peer, 0)

/-- C5: `snet_peer_throttle` follows the specified four-way policy: set to
the limit (return 0) when `lastRTT ≤ lastVar`; clamp-up by the
acceleration (return 1) on `rtt < lastRTT`; clamp-down by the
deceleration (return -1) on `rtt > lastRTT + 2 * lastVar`; otherwise
leave the state unchanged and return 0. -/
theorem snet_peer_throttle_eq_spec (peer : ThrottlePeer) (rtt : Nat) :
    snet_peer_throttle peer rtt = spec_peer_throttle peer rtt := by
  unfold snet_peer_throttle spec_peer_throttle
  split
  · rfl
  · split
    · simp only [Prod.mk.injEq, ThrottlePeer.mk.injEq, and_true, true_and]
      split <;> omega
    · split
      · simp only [Prod.mk.injEq, ThrottlePeer.mk.injEq, and_true, true_and]
        split <;> omega
      · rfl

/-! ## Reliable-window admission guard (`snet_peer_queue_incoming_command`, peer.c) -/

/-- `SNET_PEER_RELIABLE_WINDOW_SIZE` from snet.h. -/
def SNET_PEER_RELIABLE_WINDOW_SIZE : Nat := 4096

/-- `SNET_PEER_RELIABLE_WINDOWS` from snet.h. -/
def SNET_PEER_RELIABLE_WINDOWS : Nat := 16

/-- `SNET_PEER_FREE_RELIABLE_WINDOWS` from snet.h. -/
def SNET_PEER_FREE_RELIABLE_WINDOWS : Nat := 8

/-- The guard-window admission check of `snet_peer_queue_incoming_command`
(peer.c lines 838-849) for a sequenced command: returns `true` when the
command survives the check, `false` when it is discarded
(`goto discardCommand`).  Both sequence numbers are `snet_uint16`. -/
def snet_peer_window_check (reliableSequenceNumber incomingReliableSequenceNumber : Nat) : Bool :=
  let reliableWindow0 := reliableSequenceNumber / SNET_PEER_RELIABLE_WINDOW_SIZE
  let currentWindow := incomingReliableSequenceNumber / SNET_PEER_RELIABLE_WINDOW_SIZE
  let reliableWindow :=
    if reliableSequenceNumber < incomingReliableSequenceNumber then
      reliableWindow0 + SNET_PEER_RELIABLE_WINDOWS
    else reliableWindow0
  ! (decide (reliableWindow < currentWindow) ||
     decide (reliableWindow ≥ currentWindow + (SNET_PEER_FREE_RELIABLE_WINDOWS - 1)))

/-- C3: with `currentWindow = incomingReliableSequenceNumber / 4096` and the
command's window `reliableSequenceNumber / 4096` adjusted by `+16` when
the sequence number is below `incomingReliableSequenceNumber`, the
admission check accepts exactly the windows in
`[currentWindow, currentWindow + 7)` and in particular discards every
window in `[currentWindow + 7, currentWindow + 15]`. -/
theorem snet_peer_window_check_spec (seq inc : Nat) (_hs : seq < U16) (_hi : inc < U16) :
    (snet_peer_window_check seq inc = true ↔
      (inc / 4096 ≤ seq / 4096 + (if seq < inc then 16 else 0) ∧
        seq / 4096 + (if seq < inc then 16 else 0) < inc / 4096 + 7)) ∧
    ((inc / 4096 + 7 ≤ seq / 4096 + (if seq < inc then 16 else 0) ∧
        seq / 4096 + (if seq < inc then 16 else 0) ≤ inc / 4096 + 15) →
      snet_peer_window_check seq inc = false) := by
  unfold snet_peer_window_check SNET_PEER_RELIABLE_WINDOW_SIZE
    SNET_PEER_RELIABLE_WINDOWS SNET_PEER_FREE_RELIABLE_WINDOWS
  by_cases hlt : seq < inc <;> simp [hlt] <;> omega

/-- C3 witness: a concrete application of the window-guard theorem. -/
theorem snet_peer_window_check_spec_witness :
    (snet_peer_window_check 4096 0 = true ↔
      (0 / 4096 ≤ 4096 / 4096 + (if 4096 < 0 then 16 else 0) ∧
        4096 / 4096 + (if 4096 < 0 then 16 else 0) < 0 / 4096 + 7)) ∧
    ((0 / 4096 + 7 ≤ 4096 / 4096 + (if 4096 < 0 then 16 else 0) ∧
        4096 / 4096 + (if 4096 < 0 then 16 else 0) ≤ 0 / 4096 + 15) →
      snet_peer_window_check 4096 0 = false) :=
  snet_peer_window_check_spec 4096 0 (by decide) (by decide)

/-! ## RTT estimator update (`snet_protocol_handle_acknowledge`, protocol.c) -/

/-- The RTT-state update of `snet_protocol_handle_acknowledge`
(protocol.c lines 852-863), translated line for line: input is the
current mean `RTT`, the current variance `var` and the new sample `rtt`;
output is the pair (new mean, new variance).  All three are
`snet_uint32`; the only sum that can wrap for 32-bit inputs is the final
variance increase, which therefore carries an explicit `% 2^32`. -/
def snet_rtt_update (RTT var rtt : Nat) : Nat × Nat :=
  let var1 := var - var / 4
  if rtt ≥ RTT then
    let RTT1 := RTT + (rtt - RTT) / 8
    (RTT1, (var1 + (rtt - RTT1) / 4) % U32)
  else
    let RTT1 := RTT - (RTT - rtt) / 8
    (RTT1, (var1 + (RTT1 - rtt) / 4) % U32)

/-- Spec step 1: the prior variance is decayed by subtracting a quarter of
itself. -/
def spec_rtt_decay_variance (var : Nat) : Nat := var - var / 4

/-- Spec step 2: the mean is moved toward the sample by an eighth of the
difference. -/
def spec_rtt_move_mean (RTT rtt : Nat) : Nat :=
  if rtt ≥ RTT then RTT + (rtt - RTT) / 8 else RTT - (RTT - rtt) / 8

/-- Absolute difference on `Nat`. -/
def absdiff (a b : Nat) : Nat := max a b - min a b

/-- Spec step 3: the variance is increased by a quarter of the absolute
difference between the sample and the already-updated mean (wrapping as
`snet_uint32`). -/
def spec_rtt_bump_variance (var RTT1 rtt : Nat) : Nat := (var + absdiff rtt RTT1 / 4) % U32

/-- C8: on an accepted ACKNOWLEDGE the peer's RTT state is updated in
exactly this order: the variance is decayed by a quarter of itself, then
the mean is moved toward the sample by an eighth of the difference, then
the variance is increased by a quarter of the absolute difference
between the sample and the already-updated mean. -/
theorem snet_rtt_update_eq_spec (RTT var rtt : Nat) :
    snet_rtt_update RTT var rtt =
      (spec_rtt_move_mean RTT rtt,
        spec_rtt_bump_variance (spec_rtt_decay_variance var) (spec_rtt_move_mean RTT rtt) rtt) := by
  unfold snet_rtt_update spec_rtt_move_mean spec_rtt_bump_variance spec_rtt_decay_variance absdiff
  split
  · simp only [Prod.mk.injEq, true_and]
    have h2 : max rtt (RTT + (rtt - RTT) / 8) = rtt ∧ min rtt (RTT + (rtt - RTT) / 8) = RTT + (rtt - RTT) / 8 := by
      omega
    rw [h2.1, h2.2]
  · simp only [Prod.mk.injEq, true_and]
    have h2 : max rtt (RTT - (RTT - rtt) / 8) = RTT - (RTT - rtt) / 8 ∧ min rtt (RTT - (RTT - rtt) / 8) = rtt := by
      omega
    rw [h2.1, h2.2]

/-! ## Packet resize (`snet_packet_resize`, packet.c) -/

/-- `SNET_PACKET_FLAG_NO_ALLOCATE` is bit 2 (`1 << 2`) of the packet
flags. -/
def SNET_PACKET_FLAG_NO_ALLOCATE_BIT : Nat := 2

/-- An `SNetPacket` as far as `snet_packet_resize` and reference counting
are concerned: `dataPtr` abstracts the identity of the `data` pointer,
`dataBytes` the bytes stored behind it. -/
structure SNetPacket where
  dataPtr : Nat
  dataBytes : List Nat
  dataLength : Nat
  referenceCount : Nat
  flags : Nat
  deriving Repr, DecidableEq

/-- `snet_packet_resize` from packet.c lines 76-99.  `newPtr` models the
outcome of `snet_malloc` on the grow path (`none` = allocation failure);
the returned `Bool` records whether an allocation occurred.  On the grow
path the first `dataLength` bytes are copied into the fresh buffer. -/
def snet_packet_resize (packet : SNetPacket) (dataLength : Nat) (newPtr : Option Nat) :
    Int × SNetPacket × Bool :=
  if dataLength ≤ packet.dataLength || Nat.testBit packet.flags SNET_PACKET_FLAG_NO_ALLOCATE_BIT then
    (0, { packet with dataLength := dataLength }, false)
  else
    match newPtr with
    | none => (-1, packet, false)
    | some p =>
      (0, { packet with dataPtr := p,
                        dataBytes := packet.dataBytes.take packet.dataLength,
                        dataLength := dataLength }, true)

/-- C9: when the packet carries `SNET_PACKET_FLAG_NO_ALLOCATE`, or the
requested length is at most the current `dataLength`, `snet_packet_resize`
returns 0 and changes only the `dataLength` field: pointer, buffer
contents, flags and reference count are untouched and no allocation
occurs — including when growing a NoAllocate packet beyond its borrowed
buffer. -/
theorem snet_packet_resize_spec (packet : SNetPacket) (n : Nat) (newPtr : Option Nat)
    (h : Nat.testBit packet.flags SNET_PACKET_FLAG_NO_ALLOCATE_BIT = true ∨ n ≤ packet.dataLength) :
    snet_packet_resize packet n newPtr = (0, { packet with dataLength := n }, false) := by
  unfold snet_packet_resize
  rcases h with h | h
  · simp [h]
  · simp [h]

/-- C9 witness: growing a borrowed (NoAllocate) packet from 3 to 1000
bytes leaves everything but `dataLength` alone. -/
theorem snet_packet_resize_spec_witness :
    snet_packet_resize ⟨7, [1, 2, 3], 3, 0, 4⟩ 1000 (some 99) =
      (0, ⟨7, [1, 2, 3], 1000, 0, 4⟩, false) :=
  snet_packet_resize_spec ⟨7, [1, 2, 3], 3, 0, 4⟩ 1000 (some 99) (Or.inl (by decide))

/-! ## Per-tick timeout check (`snet_protocol_check_timeouts`, protocol.c) -/

/-- The fields of an `SNetOutgoingCommand` read and written by the timeout
check (all `snet_uint32`/`snet_uint16` in the source; `hasPacket` models
`packet != NULL`). -/
structure SentCmd where
  sentTime : Nat
  rto : Nat
  rtoLimit : Nat
  fragmentLength : Nat
  hasPacket : Bool
  deriving Repr, DecidableEq

/-- The fields of `SNetPeer` read and written by the timeout check. -/
structure TimeoutPeer where
  earliestTimeout : Nat
  timeoutMaximum : Nat
  timeoutMinimum : Nat
  packetsLost : Nat
  reliableDataInTransit : Nat
  nextTimeout : Nat
  deriving Repr, DecidableEq

/-- Outcome of one iteration of the `snet_protocol_check_timeouts` loop
for one command of `sentReliableCommands`. -/
inductive TimeoutStep where
  | retained
  | disconnected
  | resent (c : SentCmd)
  deriving Repr, DecidableEq

/-- One iteration of the loop body of `snet_protocol_check_timeouts`
(protocol.c lines 1424-1452): skip the command when its age is below its
round-trip timeout; otherwise update `earliestTimeout`, disconnect when
the guarded timeout condition holds, and otherwise adjust
`reliableDataInTransit`, count the loss, double the timeout and hand the
command back for resending. -/
def snet_check_timeout_step (serviceTime : Nat) (p : TimeoutPeer) (c : SentCmd) :
    TimeoutPeer × TimeoutStep :=
  if snet_time_difference serviceTime c.sentTime < c.rto then
    (p, TimeoutStep.retained)
  else
    let p1 :=
      if p.earliestTimeout = 0 ∨ snet_time_less c.sentTime p.earliestTimeout = true then
        { p with earliestTimeout := c.sentTime }
      else p
    if p1.earliestTimeout ≠ 0 ∧
        (snet_time_difference serviceTime p1.earliestTimeout ≥ p1.timeoutMaximum ∨
          (c.rto ≥ c.rtoLimit ∧
            snet_time_difference serviceTime p1.earliestTimeout ≥ p1.timeoutMinimum)) then
      (p1, TimeoutStep.disconnected)
    else
      let p2 :=
        if c.hasPacket then
          { p1 with reliableDataInTransit := sub32 p1.reliableDataInTransit c.fragmentLength }
        else p1
      ({ p2 with packetsLost := (p2.packetsLost + 1) % U32 },
        TimeoutStep.resent { c with rto := (2 * c.rto) % U32 })

/-- Result of `snet_protocol_check_timeouts`: the updated peer fields, the
commands left on `sentReliableCommands`, the commands moved back for
resending (in order), and whether the loop disconnected the peer. -/
structure TimeoutResult where
  peer : TimeoutPeer
  sentReliable : List SentCmd
  resent : List SentCmd
  disconnected : Bool
  deriving Repr, DecidableEq

/-- The loop of `snet_protocol_check_timeouts` over
`sentReliableCommands`.  `prefixAllRemoved` tracks whether every command
before the current one was spliced off the list, which is exactly when
`currentCommand == snet_list_begin (sentReliableCommands)` holds after a
removal; in that case (and when a command follows) `nextTimeout` is
refreshed from the new head of the list. -/
def snet_check_timeouts_loop (serviceTime : Nat) (p : TimeoutPeer) (sent : List SentCmd)
    (prefixAllRemoved : Bool) : TimeoutResult :=
  match sent with
  | [] => ⟨p, [], [], false⟩
  | c :: rest =>
    match snet_check_timeout_step serviceTime p c with
    | (p1, TimeoutStep.retained) =>
      let r := snet_check_timeouts_loop serviceTime p1 rest false
      ⟨r.peer, c :: r.sentReliable, r.resent, r.disconnected⟩
    | (p1, TimeoutStep.disconnected) => ⟨p1, c :: rest, [], true⟩
    | (p1, TimeoutStep.resent c1) =>
      let p2 :=
        match prefixAllRemoved, rest with
        | true, d :: _ => { p1 with nextTimeout := (d.sentTime + d.rto) % U32 }
        | _, _ => p1
      let r := snet_check_timeouts_loop serviceTime p2 rest prefixAllRemoved
      ⟨r.peer, r.sentReliable, c1 :: r.resent, r.disconnected⟩

/-- `snet_protocol_check_timeouts` (protocol.c lines 1413-1464): runs the
loop over `sentReliableCommands` and splices the timed-out commands, in
order, back to the head of `outgoingReliableCommands` (the insert
position is the head of that queue at entry). -/
def snet_protocol_check_timeouts (serviceTime : Nat) (p : TimeoutPeer)
    (sent outgoingReliable : List SentCmd) : TimeoutResult × List SentCmd :=
  let r := snet_check_timeouts_loop serviceTime p sent true
  (r, r.resent ++ outgoingReliable)

/-- C2 counterexample: at service time 30000 a command with `sentTime = 0`
and round-trip timeout 1000 has timed out, and the peer's earliest
outstanding sent time (0, this very command's) has aged past
`timeoutMaximum = 30000`; the claim then demands a disconnect, but the
code's `earliestTimeout != 0` guard treats 0 as "unset" and the command
is resent with its timeout doubled instead. -/
theorem snet_check_timeout_step_counterexample :
    (1000 : Nat) ≤ snet_time_difference 30000 0 ∧
    (30000 : Nat) ≤ snet_time_difference 30000 0 ∧
    (snet_check_timeout_step 30000 ⟨0, 30000, 5000, 0, 0, 0⟩ ⟨0, 1000, 32000, 0, false⟩).2 =
      TimeoutStep.resent ⟨0, 2000, 32000, 0, false⟩ := by
  decide

/-- C2 (amended): for a command of `sentReliableCommands` whose age has
reached its round-trip timeout, with `e` the updated `earliestTimeout`
(this command's `sentTime` when the stored value was 0/unset or the
command is older): the peer is disconnected iff `e` is nonzero and has
aged past `timeoutMaximum`, or past `timeoutMinimum` with the command's
round-trip timeout at its limit (`0` being the "unset" sentinel, a
command with `sentTime = 0` cannot trigger the disconnect on its own);
otherwise `packetsLost` is incremented, the command's round-trip timeout
is doubled, and the command is spliced back to the head of the
`outgoingReliableCommands` queue. -/
theorem snet_check_timeout_step_spec (st : Nat) (p : TimeoutPeer) (c : SentCmd)
    (htimeout : c.rto ≤ snet_time_difference st c.sentTime) :
    let e := if p.earliestTimeout = 0 ∨ snet_time_less c.sentTime p.earliestTimeout = true
      then c.sentTime else p.earliestTimeout
    ((snet_check_timeout_step st p c).2 = TimeoutStep.disconnected ↔
      (e ≠ 0 ∧
        (p.timeoutMaximum ≤ snet_time_difference st e ∨
          (c.rtoLimit ≤ c.rto ∧ p.timeoutMinimum ≤ snet_time_difference st e)))) ∧
    (¬ (e ≠ 0 ∧
        (p.timeoutMaximum ≤ snet_time_difference st e ∨
          (c.rtoLimit ≤ c.rto ∧ p.timeoutMinimum ≤ snet_time_difference st e))) →
      (snet_check_timeout_step st p c).1.packetsLost = (p.packetsLost + 1) % U32 ∧
      (snet_check_timeout_step st p c).2 = TimeoutStep.resent { c with rto := (2 * c.rto) % U32 } ∧
      ∀ rest outgoing,
        ((snet_protocol_check_timeouts st p (c :: rest) outgoing).2).head? =
          some { c with rto := (2 * c.rto) % U32 }) := by
  intro e
  have hnot : ¬ (snet_time_difference st c.sentTime < c.rto) := by omega
  have hsel : (if p.earliestTimeout = 0 ∨ snet_time_less c.sentTime p.earliestTimeout = true
      then { p with earliestTimeout := c.sentTime } else p) =
      { p with earliestTimeout := e } := by
    unfold e
    split <;> rfl
  by_cases hd : e ≠ 0 ∧
      (p.timeoutMaximum ≤ snet_time_difference st e ∨
        (c.rtoLimit ≤ c.rto ∧ p.timeoutMinimum ≤ snet_time_difference st e))
  · constructor
    · unfold snet_check_timeout_step
      rw [if_neg hnot, hsel, if_pos (by simpa using hd)]
      simp [hd]
    · intro hcon
      exact absurd hd hcon
  · have hstep : snet_check_timeout_step st p c =
        (({ (if c.hasPacket then
              { ({ p with earliestTimeout := e } : TimeoutPeer) with
                  reliableDataInTransit := sub32 p.reliableDataInTransit c.fragmentLength }
            else { p with earliestTimeout := e }) with
            packetsLost := (p.packetsLost + 1) % U32 } : TimeoutPeer),
          TimeoutStep.resent { c with rto := (2 * c.rto) % U32 }) := by
      unfold snet_check_timeout_step
      rw [if_neg hnot, hsel, if_neg (by simpa using hd)]
      split <;> rfl
    constructor
    · rw [hstep]
      simp [hd]
    · intro _
      refine ⟨?_, ?_, ?_⟩
      · rw [hstep]
      · rw [hstep]
      · intro rest outgoing
        unfold snet_protocol_check_timeouts snet_check_timeouts_loop
        rw [hstep]
        cases rest <;> simp

/-- C2 witness: a concrete application of the amended timeout theorem — a
timed-out command below the disconnect condition is resent with its
round-trip timeout doubled. -/
theorem snet_check_timeout_step_spec_witness :
    (snet_check_timeout_step 1000 ⟨0, 30000, 5000, 0, 0, 0⟩ ⟨0, 100, 3200, 0, false⟩).2 =
      TimeoutStep.resent ⟨0, 200, 3200, 0, false⟩ := by
  have h := snet_check_timeout_step_spec 1000 ⟨0, 30000, 5000, 0, 0, 0⟩
    ⟨0, 100, 3200, 0, false⟩ (by decide)
  obtain ⟨h1, h2⟩ := h
  exact (h2 (by decide)).2.1

/-! ## Receive loop (`snet_protocol_receive_incoming_commands`, protocol.c) -/

/-- One attempt of `snet_socket_receive` together with the handling of the
datagram it returned: `transportError` models a negative receive result,
`wouldBlock` a zero result, and `datagram h` a received datagram for
which `snet_protocol_handle_incoming_commands` returns `h` (1 when it
filled the event, -1 on error, 0 otherwise; the host intercept of the
source is `NULL` here). -/
inductive RecvOutcome where
  | transportError
  | wouldBlock
  | datagram (handleResult : Int)
  deriving Repr, DecidableEq

/-- The loop of `snet_protocol_receive_incoming_commands` (protocol.c
lines 1195-1257) over the pending socket results, with the remaining
loop budget (`256 - packets`) as first argument; an exhausted stream
behaves like an empty socket (`wouldBlock`).  Returns the function's
return value and the number of datagrams accepted.  When the budget runs
out after 256 accepted datagrams the function returns -1 — the error
channel — even though no transport error occurred. -/
def snet_receive_loop (budget : Nat) (pending : List RecvOutcome) : Int × Nat :=
  match budget with
  | 0 => (-1, 0)
  | budget + 1 =>
    match pending with
    | [] => (0, 0)
    | RecvOutcome.transportError :: _ => (-1, 0)
    | RecvOutcome.wouldBlock :: _ => (0, 0)
    | RecvOutcome.datagram h :: rest =>
      if h = 1 then (1, 1)
      else if h = -1 then (-1, 1)
      else
        let r := snet_receive_loop budget rest
        (r.1, r.2 + 1)

/-- `snet_protocol_receive_incoming_commands`: the loop starts with
`packets = 0` and runs while `packets < 256`. -/
def snet_protocol_receive_incoming_commands (pending : List RecvOutcome) : Int × Nat :=
  snet_receive_loop 256 pending

set_option maxRecDepth 8192 in
/-- C4 counterexample: with 256 benign datagrams pending (each handled
without error and without filling the event) and no transport error, the
receive pass accepts all 256 and then returns -1 — the value the service
loop treats as a fatal transport error. -/
theorem snet_receive_incoming_counterexample :
    snet_protocol_receive_incoming_commands (List.replicate 256 (RecvOutcome.datagram 0)) =
      (-1, 256) ∧
    (List.replicate 256 (RecvOutcome.datagram 0)).all
      (fun o => decide (o ≠ RecvOutcome.transportError ∧ o ≠ RecvOutcome.datagram (-1))) = true := by
  constructor
  · rfl
  · rfl

/-- C4 (amended): the receive pass accepts at most 256 datagrams per
invocation; its return value is 1 (event filled), 0 (drained/timeout) or
-1, and -1 is returned not only on a fatal transport error or a handler
error but also after 256 datagrams have been accepted without either. -/
theorem snet_receive_incoming_spec (pending : List RecvOutcome) :
    (snet_protocol_receive_incoming_commands pending).2 ≤ 256 ∧
    ((snet_protocol_receive_incoming_commands pending).1 = 1 ∨
      (snet_protocol_receive_incoming_commands pending).1 = 0 ∨
      (snet_protocol_receive_incoming_commands pending).1 = -1) ∧
    ((snet_protocol_receive_incoming_commands pending).1 = -1 →
      (snet_protocol_receive_incoming_commands pending).2 = 256 ∨
      RecvOutcome.transportError ∈ pending ∨ RecvOutcome.datagram (-1) ∈ pending) := by
  have main : ∀ (budget : Nat) (l : List RecvOutcome),
      (snet_receive_loop budget l).2 ≤ budget ∧
      ((snet_receive_loop budget l).1 = 1 ∨ (snet_receive_loop budget l).1 = 0 ∨
        (snet_receive_loop budget l).1 = -1) ∧
      ((snet_receive_loop budget l).1 = -1 →
        (snet_receive_loop budget l).2 = budget ∨
        RecvOutcome.transportError ∈ l ∨ RecvOutcome.datagram (-1) ∈ l) := by
    intro budget
    induction budget with
    | zero =>
      intro l
      refine ⟨Nat.le_refl 0, Or.inr (Or.inr rfl), fun _ => Or.inl rfl⟩
    | succ n ih =>
      intro l
      match l with
      | [] => exact ⟨Nat.zero_le _, Or.inr (Or.inl rfl), fun h => by simp [snet_receive_loop] at h⟩
      | RecvOutcome.transportError :: rest =>
        refine ⟨Nat.zero_le _, Or.inr (Or.inr rfl), fun _ => Or.inr (Or.inl ?_)⟩
        exact List.mem_cons_self _ _
      | RecvOutcome.wouldBlock :: rest =>
        exact ⟨Nat.zero_le _, Or.inr (Or.inl rfl), fun h => by simp [snet_receive_loop] at h⟩
      | RecvOutcome.datagram h :: rest =>
        by_cases h1 : h = 1
        · refine ⟨?_, ?_, ?_⟩ <;> simp [snet_receive_loop, h1]
        · by_cases h2 : h = -1
          · refine ⟨?_, ?_, ?_⟩ <;> simp [snet_receive_loop, h1, h2]
          · have hr := ih rest
            refine ⟨?_, ?_, ?_⟩
            · simp only [snet_receive_loop, if_neg h1, if_neg h2]
              omega
            · simp only [snet_receive_loop, if_neg h1, if_neg h2]
              exact hr.2.1
            · simp only [snet_receive_loop, if_neg h1, if_neg h2]
              intro hneg
              rcases hr.2.2 hneg with hb | hmem | hmem
              · exact Or.inl (by omega)
              · exact Or.inr (Or.inl (List.mem_cons_of_mem _ hmem))
              · exact Or.inr (Or.inr (List.mem_cons_of_mem _ hmem))
  exact main 256 pending

/-- C4 witness: a concrete application of the amended receive-loop
theorem, at a pending list holding one benign datagram. -/
theorem snet_receive_incoming_spec_witness :
    (snet_protocol_receive_incoming_commands [RecvOutcome.datagram 0]).2 ≤ 256 ∧
    ((snet_protocol_receive_incoming_commands [RecvOutcome.datagram 0]).1 = 1 ∨
      (snet_protocol_receive_incoming_commands [RecvOutcome.datagram 0]).1 = 0 ∨
      (snet_protocol_receive_incoming_commands [RecvOutcome.datagram 0]).1 = -1) ∧
    ((snet_protocol_receive_incoming_commands [RecvOutcome.datagram 0]).1 = -1 →
      (snet_protocol_receive_incoming_commands [RecvOutcome.datagram 0]).2 = 256 ∨
      RecvOutcome.transportError ∈ [RecvOutcome.datagram 0] ∨
      RecvOutcome.datagram (-1) ∈ [RecvOutcome.datagram 0]) :=
  snet_receive_incoming_spec [RecvOutcome.datagram 0]

/-! ## Sending a packet (`snet_peer_send`, peer.c) -/

/-- `SNET_PROTOCOL_MAXIMUM_FRAGMENT_COUNT` from protocol.h. -/
def SNET_PROTOCOL_MAXIMUM_FRAGMENT_COUNT : Nat := 1024 * 1024

/-- Per-channel outgoing sequence state (`SNetChannel`). -/
structure SNetChannelSeq where
  outgoingReliableSequenceNumber : Nat
  outgoingUnreliableSequenceNumber : Nat
  deriving Repr, DecidableEq

/-- States of `SNetPeerState` from snet.h. -/
inductive SNetPeerState where
  | disconnected
  | connecting
  | acknowledgingConnect
  | connectionPending
  | connectionSucceeded
  | connected
  | disconnectLater
  | disconnecting
  | acknowledgingDisconnect
  | zombie
  deriving Repr, DecidableEq

/-- The peer and host fields consulted by `snet_peer_send`:
`hostChecksum` models `peer->host->checksum != NULL`,
`hostMaximumPacketSize` is `peer->host->maximumPacketSize`, and
`channels` carries one entry per allocated channel
(`peer->channelCount = channels.length`). -/
structure SendPeer where
  state : SNetPeerState
  channels : List SNetChannelSeq
  mtu : Nat
  hostChecksum : Bool
  hostMaximumPacketSize : Nat
  deriving Repr, DecidableEq

/-- Kinds of send command `snet_peer_send` can enqueue. -/
inductive SNetOutKind where
  | sendReliable
  | sendUnreliable
  | sendUnsequenced
  | sendFragment
  | sendUnreliableFragment
  deriving Repr, DecidableEq

/-- One outgoing send command as set up by `snet_peer_send` (fields of the
wire command that the function fills in; unused fields are 0 for
unfragmented sends). -/
structure SNetOutCommand where
  kind : SNetOutKind
  channelID : Nat
  fragmentOffset : Nat
  fragmentLength : Nat
  fragmentCount : Nat
  fragmentNumber : Nat
  totalLength : Nat
  startSequenceNumber : Nat
  deriving Repr, DecidableEq

/-- Whether a command kind is one of the two fragment kinds. -/
def SNetOutKind.isFragment : SNetOutKind → Bool
  | SNetOutKind.sendFragment => true
  | SNetOutKind.sendUnreliableFragment => true
  | _ => false

/-- The per-fragment payload capacity computed by `snet_peer_send`:
`peer->mtu - sizeof (SNetProtocolHeader) - sizeof (SNetProtocolSendFragment)`
(4 and 24 bytes), minus 4 more when the host has a checksum configured.
(The C computation is on `size_t`; for the engine-enforced
`mtu ≥ SNET_PROTOCOL_MINIMUM_MTU = 576` no underflow occurs.) -/
def snet_fragment_length (peer : SendPeer) : Nat :=
  peer.mtu - 4 - 24 - (if peer.hostChecksum then 4 else 0)

/-- The fragment loop of `snet_peer_send` (peer.c lines 142-177): walks
`fragmentOffset` through the packet in strides of `fragmentLength`,
trimming the final fragment; the fuel argument (`dataLength + 1` at the
top call) bounds the iteration count, which the C loop attains because
each stride is positive. -/
def snet_frag_loop (fuel dataLength fragmentLength offset fragmentNumber : Nat)
    (kind : SNetOutKind) (channelID startSequenceNumber fragmentCount : Nat) :
    List SNetOutCommand :=
  match fuel with
  | 0 => []
  | fuel + 1 =>
    if offset < dataLength then
      let len := if dataLength - offset < fragmentLength then dataLength - offset
        else fragmentLength
      { kind := kind, channelID := channelID, fragmentOffset := offset,
        fragmentLength := len, fragmentCount := fragmentCount,
        fragmentNumber := fragmentNumber, totalLength := dataLength,
        startSequenceNumber := startSequenceNumber } ::
        snet_frag_loop fuel dataLength len (offset + len) (fragmentNumber + 1)
          kind channelID startSequenceNumber fragmentCount
    else []

/-- `snet_peer_send` from peer.c lines 99-214, as the list of send
commands it enqueues (`none` models a `return -1`; allocation is assumed
to succeed).  On success the packet's reference count rises by the
length of the returned list (by `++referenceCount` in
`snet_peer_queue_outgoing_command` for the single-command path, and by
`packet->referenceCount += fragmentNumber` for the fragment path). -/
def snet_peer_send (peer : SendPeer) (channelID : Nat) (packet : SNetPacket) :
    Option (List SNetOutCommand) :=
  if peer.state ≠ SNetPeerState.connected ∨ peer.channels.length ≤ channelID ∨
      peer.hostMaximumPacketSize < packet.dataLength then
    none
  else
    let channel := peer.channels.getD channelID ⟨0, 0⟩
    let fragmentLength := snet_fragment_length peer
    if packet.dataLength > fragmentLength then
      let fragmentCount := (packet.dataLength + fragmentLength - 1) / fragmentLength
      if fragmentCount > SNET_PROTOCOL_MAXIMUM_FRAGMENT_COUNT then none
      else
        let useUnreliableFragment :=
          Nat.testBit packet.flags 3 ∧ ¬ Nat.testBit packet.flags 0 ∧
            channel.outgoingUnreliableSequenceNumber < 0xFFFF
        let kind := if useUnreliableFragment then SNetOutKind.sendUnreliableFragment
          else SNetOutKind.sendFragment
        let startSequenceNumber :=
          if useUnreliableFragment then (channel.outgoingUnreliableSequenceNumber + 1) % U16
          else (channel.outgoingReliableSequenceNumber + 1) % U16
        some (snet_frag_loop (packet.dataLength + 1) packet.dataLength fragmentLength 0 0
          kind channelID startSequenceNumber fragmentCount)
    else
      let kind :=
        if Nat.testBit packet.flags 1 ∧ ¬ Nat.testBit packet.flags 0 then
          SNetOutKind.sendUnsequenced
        else if Nat.testBit packet.flags 0 ∨
            0xFFFF ≤ channel.outgoingUnreliableSequenceNumber then
          SNetOutKind.sendReliable
        else SNetOutKind.sendUnreliable
      some [{ kind := kind, channelID := channelID, fragmentOffset := 0,
              fragmentLength := packet.dataLength, fragmentCount := 0, fragmentNumber := 0,
              totalLength := 0, startSequenceNumber := 0 }]

theorem snet_frag_loop_two (k : Nat) (kind : SNetOutKind) (chan seq cnt : Nat) :
    snet_frag_loop (k + 3) (k + 2) (k + 1) 0 0 kind chan seq cnt =
      [⟨kind, chan, 0, k + 1, cnt, 0, k + 2, seq⟩, ⟨kind, chan, k + 1, 1, cnt, 1, k + 2, seq⟩] := by
  rw [snet_frag_loop, if_pos (by omega : (0 : Nat) < k + 2)]
  simp only [Nat.sub_zero, show ¬(k + 2 < k + 1) by omega, if_false, ite_false, Nat.zero_add]
  rw [snet_frag_loop, if_pos (by omega : k + 1 < k + 2)]
  have hlen : (if k + 2 - (k + 1) < k + 1 then k + 2 - (k + 1) else k + 1) = 1 := by
    split <;> omega
  rw [hlen]
  dsimp only
  rw [snet_frag_loop, if_neg (by omega : ¬(k + 1 + 1 < k + 2))]

/-- C6: for a connected peer and a valid channel, sending a packet of
exactly `fragmentLength` bytes (the per-fragment payload capacity
`mtu - sizeof(SNetProtocolHeader) - sizeof(SNetProtocolSendFragment)`,
minus 4 with a checksum) enqueues exactly one send command, not a
fragment; sending `fragmentLength + 1` bytes enqueues exactly two
fragment commands. -/
theorem snet_peer_send_boundary (peer : SendPeer) (channelID : Nat) (pktA pktB : SNetPacket)
    (hstate : peer.state = SNetPeerState.connected)
    (hchan : channelID < peer.channels.length)
    (hmtu : 33 ≤ peer.mtu)
    (hA : pktA.dataLength = snet_fragment_length peer)
    (hAmax : pktA.dataLength ≤ peer.hostMaximumPacketSize)
    (hB : pktB.dataLength = snet_fragment_length peer + 1)
    (hBmax : pktB.dataLength ≤ peer.hostMaximumPacketSize) :
    (∃ c, snet_peer_send peer channelID pktA = some [c] ∧ c.kind.isFragment = false) ∧
    (∃ c1 c2, snet_peer_send peer channelID pktB = some [c1, c2] ∧
      c1.kind.isFragment = true ∧ c2.kind.isFragment = true) := by
  have hfl : 1 ≤ snet_fragment_length peer := by
    unfold snet_fragment_length
    split <;> omega
  constructor
  · have hguard : ¬(peer.state ≠ SNetPeerState.connected ∨ peer.channels.length ≤ channelID ∨
        peer.hostMaximumPacketSize < pktA.dataLength) := by
      push_neg
      exact ⟨hstate, hchan, hAmax⟩
    unfold snet_peer_send
    rw [if_neg hguard]
    dsimp only
    rw [if_neg (by omega : ¬ pktA.dataLength > snet_fragment_length peer)]
    refine ⟨_, rfl, ?_⟩
    split
    · rfl
    · split <;> rfl
  · have hguard : ¬(peer.state ≠ SNetPeerState.connected ∨ peer.channels.length ≤ channelID ∨
        peer.hostMaximumPacketSize < pktB.dataLength) := by
      push_neg
      exact ⟨hstate, hchan, hBmax⟩
    unfold snet_peer_send
    rw [if_neg hguard]
    dsimp only
    rw [if_pos (by rw [hB]; omega : pktB.dataLength > snet_fragment_length peer)]
    have hcnt : (pktB.dataLength + snet_fragment_length peer - 1) / snet_fragment_length peer =
        2 := by
      rw [hB, show snet_fragment_length peer + 1 + snet_fragment_length peer - 1 =
        2 * snet_fragment_length peer from by omega]
      exact Nat.mul_div_cancel 2 hfl
    rw [hcnt]
    rw [if_neg (by norm_num [SNET_PROTOCOL_MAXIMUM_FRAGMENT_COUNT])]
    rw [hB]
    obtain ⟨k, hk⟩ : ∃ k, snet_fragment_length peer = k + 1 :=
      ⟨snet_fragment_length peer - 1, by omega⟩
    rw [hk]
    rw [show k + 1 + 1 + 1 = k + 3 from rfl]
    rw [snet_frag_loop_two]
    refine ⟨_, _, rfl, ?_, ?_⟩
    · split <;> rfl
    · split <;> rfl

/-- C6 witness: a concrete application of the boundary theorem at
`mtu = 1400` without checksum (`fragmentLength = 1372`) on a reliable
packet of 1372 and one of 1373 bytes. -/
theorem snet_peer_send_boundary_witness :
    (∃ c, snet_peer_send ⟨SNetPeerState.connected, [⟨0, 0⟩], 1400, false, 33554432⟩ 0
        ⟨0, [], 1372, 0, 1⟩ = some [c] ∧ c.kind.isFragment = false) ∧
    (∃ c1 c2, snet_peer_send ⟨SNetPeerState.connected, [⟨0, 0⟩], 1400, false, 33554432⟩ 0
        ⟨0, [], 1373, 0, 1⟩ = some [c1, c2] ∧
      c1.kind.isFragment = true ∧ c2.kind.isFragment = true) :=
  snet_peer_send_boundary ⟨SNetPeerState.connected, [⟨0, 0⟩], 1400, false, 33554432⟩ 0
    ⟨0, [], 1372, 0, 1⟩ ⟨0, [], 1373, 0, 1⟩ rfl (by decide) (by decide) (by decide) (by decide)
    (by decide) (by decide)

/-! ## Broadcast (`snet_host_broadcast`, host.c) -/

/-- `snet_host_broadcast` from host.c lines 260-277: walk the peer table,
skip every peer not in state `CONNECTED`, call `snet_peer_send` on the
rest (each successful send raising the packet's reference count by the
number of commands enqueued, a failed send leaving it alone), then
destroy the packet when its reference count is still 0.  Returns the
packet state after the loop and whether it was destroyed. -/
def snet_host_broadcast (peers : List SendPeer) (channelID : Nat) (packet : SNetPacket) :
    SNetPacket × Bool :=
  let finalPacket := peers.foldl (fun pkt peer =>
    if peer.state ≠ SNetPeerState.connected then pkt
    else
      match snet_peer_send peer channelID pkt with
      | none => pkt
      | some cmds => { pkt with referenceCount := pkt.referenceCount + cmds.length }) packet
  (finalPacket, decide (finalPacket.referenceCount = 0))

/-- C10: `snet_host_broadcast` queues the packet only on peers in state
`CONNECTED` — when no peer in the table is connected the packet is left
untouched by the loop — and after the loop it destroys the packet iff
its reference count is still 0 (in particular a zero-reference packet
broadcast to no connected peer is destroyed, so the caller must not use
it afterwards). -/
theorem snet_host_broadcast_spec (peers : List SendPeer) (channelID : Nat)
    (packet : SNetPacket) :
    ((snet_host_broadcast peers channelID packet).2 = true ↔
      (snet_host_broadcast peers channelID packet).1.referenceCount = 0) ∧
    ((∀ p ∈ peers, p.state ≠ SNetPeerState.connected) →
      snet_host_broadcast peers channelID packet =
        (packet, decide (packet.referenceCount = 0))) := by
  constructor
  · unfold snet_host_broadcast
    exact decide_eq_true_iff
  · intro h
    unfold snet_host_broadcast
    have aux : ∀ (l : List SendPeer), (∀ p ∈ l, p.state ≠ SNetPeerState.connected) →
        l.foldl (fun pkt peer =>
          if peer.state ≠ SNetPeerState.connected then pkt
          else
            match snet_peer_send peer channelID pkt with
            | none => pkt
            | some cmds =>
              { pkt with referenceCount := pkt.referenceCount + cmds.length }) packet =
          packet := by
      intro l
      induction l with
      | nil => intro _; rfl
      | cons p ps ih =>
        intro hl
        rw [List.foldl_cons]
        rw [if_pos (hl p (List.mem_cons_self p ps))]
        exact ih (fun q hq => hl q (List.mem_cons_of_mem _ hq))
    rw [aux peers h]

/-- C10 witness: broadcasting a zero-reference packet on a host with a
single disconnected peer destroys the packet. -/
theorem snet_host_broadcast_spec_witness :
    snet_host_broadcast [⟨SNetPeerState.disconnected, [], 1400, false, 0⟩] 0
        ⟨0, [], 5, 0, 0⟩ =
      (⟨0, [], 5, 0, 0⟩, true) :=
  (snet_host_broadcast_spec [⟨SNetPeerState.disconnected, [], 1400, false, 0⟩] 0
    ⟨0, [], 5, 0, 0⟩).2 (by decide)

/-! ## Adaptive order-2 PPM range coder (compress.c)

The coder state is the symbol pool `SNetRangeCoder.symbols`.  The pool is
modelled as a growable `Array Sym` whose size plays the role of
`nextSymbol` (the C array is fixed at 4096 entries and `nextSymbol`
counts the used prefix; entries beyond it are never read before being
re-created, so the growable array is equivalent).  Index 0 is the root
context.  `left`, `right` and `symbols` are relative offsets (always
positive, since created symbols live at higher indices), `parent` is an
absolute index, exactly as in the source.  The 8- and 16-bit fields wrap
via `u8m`/`u16m` where C stores would truncate.  Tree walks carry fuel;
the C walks terminate because each step moves to a strictly larger
index, so fuel `pool.size + 1` is never exhausted on states the coder
actually reaches. -/

/-- Truncation to `snet_uint8`. -/
def u8m (n : Nat) : Nat := n % 256

/-- Truncation to `snet_uint16`. -/
def u16m (n : Nat) : Nat := n % 65536

/-- `SNET_RANGE_CODER_TOP`. -/
def SNET_RANGE_CODER_TOP : Nat := 16777216

/-- `SNET_RANGE_CODER_BOTTOM`. -/
def SNET_RANGE_CODER_BOTTOM : Nat := 65536

/-- `SNET_CONTEXT_SYMBOL_DELTA`. -/
def SNET_CONTEXT_SYMBOL_DELTA : Nat := 3

/-- `SNET_CONTEXT_SYMBOL_MINIMUM`. -/
def SNET_CONTEXT_SYMBOL_MINIMUM : Nat := 1

/-- `SNET_CONTEXT_ESCAPE_MINIMUM`. -/
def SNET_CONTEXT_ESCAPE_MINIMUM : Nat := 1

/-- `SNET_SUBCONTEXT_ORDER`. -/
def SNET_SUBCONTEXT_ORDER : Nat := 2

/-- `SNET_SUBCONTEXT_SYMBOL_DELTA`. -/
def SNET_SUBCONTEXT_SYMBOL_DELTA : Nat := 2

/-- `SNET_SUBCONTEXT_ESCAPE_DELTA`. -/
def SNET_SUBCONTEXT_ESCAPE_DELTA : Nat := 5

/-- `SNetSymbol` from compress.c: a node of a binary-indexed tree of
symbols that doubles as the context defined by that symbol. -/
structure Sym where
  value : Nat
  count : Nat
  under : Nat
  left : Nat
  right : Nat
  symbols : Nat
  escapes : Nat
  total : Nat
  parent : Nat
  deriving Repr, DecidableEq, Inhabited

/-- Read `rangeCoder->symbols[i]`. -/
def getSym (pool : Array Sym) (i : Nat) : Sym := pool.getD i default

/-- Write `rangeCoder->symbols[i]`. -/
def setSym (pool : Array Sym) (i : Nat) (s : Sym) : Array Sym :=
  if h : i < pool.size then pool.set ⟨i, h⟩ s else pool

/-- `SNET_SYMBOL_CREATE(symbol, value, count)`: take the next pool slot. -/
def symbol_create (pool : Array Sym) (value count : Nat) : Array Sym :=
  pool.push ⟨u8m value, u8m count, u16m count, 0, 0, 0, 0, 0, 0⟩

/-- `SNET_CONTEXT_CREATE(root, escapes, minimum)` at `nextSymbol = 0`:
the (re)created root pool. -/
def context_create_root (escapes minimum : Nat) : Array Sym :=
  #[⟨0, 0, 0, 0, 0, 0, u16m escapes, u16m (escapes + 256 * minimum), 0⟩]

/-- `snet_symbol_rescale`: halve the counts of the subtree rooted at `i`
and rebuild the `under` fields, returning the subtree's new total. -/
def symbol_rescale (fuel : Nat) (pool : Array Sym) (i : Nat) : Array Sym × Nat :=
  match fuel with
  | 0 => (pool, 0)
  | fuel + 1 =>
    let s := getSym pool i
    let c := s.count - s.count / 2
    let lr := if s.left ≠ 0 then
        let r := symbol_rescale fuel pool (i + s.left)
        (r.1, u16m (c + r.2))
      else (pool, c)
    let pool2 := setSym lr.1 i { getSym lr.1 i with count := c, under := lr.2 }
    if s.right ≠ 0 then
      let r := symbol_rescale fuel pool2 (i + s.right)
      (r.1, u16m (lr.2 + r.2))
    else (pool2, lr.2)

/-- `SNET_CONTEXT_RESCALE(context, minimum)`. -/
def context_rescale (pool : Array Sym) (ctx minimum : Nat) : Array Sym :=
  let s := getSym pool ctx
  let pt := if s.symbols ≠ 0 then symbol_rescale (pool.size + 1) pool (ctx + s.symbols)
    else (pool, 0)
  let s1 := getSym pt.1 ctx
  let esc := s1.escapes - s1.escapes / 2
  setSym pt.1 ctx { s1 with escapes := esc, total := u16m (pt.2 + esc + 256 * minimum) }

/-- The tree walk of `SNET_CONTEXT_ENCODE` from node `node`, accumulating
`under_`/`count_`; creates the symbol at the fringe when absent.
Returns (pool, symbol index, under, count). -/
def context_encode_walk (fuel : Nat) (pool : Array Sym) (node value update under count : Nat) :
    Array Sym × Nat × Nat × Nat :=
  match fuel with
  | 0 => (pool, node, under, count)
  | fuel + 1 =>
    let s := getSym pool node
    if value < s.value then
      let pool1 := setSym pool node { s with under := u16m (s.under + update) }
      if s.left ≠ 0 then
        context_encode_walk fuel pool1 (node + s.left) value update under count
      else
        let newIdx := pool1.size
        let pool2 := symbol_create pool1 value update
        (setSym pool2 node { getSym pool2 node with left := u16m (newIdx - node) },
          newIdx, under, count)
    else if value > s.value then
      let under1 := u16m (under + s.under)
      if s.right ≠ 0 then
        context_encode_walk fuel pool (node + s.right) value update under1 count
      else
        let newIdx := pool.size
        let pool2 := symbol_create pool value update
        (setSym pool2 node { getSym pool2 node with right := u16m (newIdx - node) },
          newIdx, under1, count)
    else
      let count1 := u16m (count + s.count)
      let under1 := (under + s.under + 65536 - s.count) % 65536
      let pool1 := setSym pool node
        { s with under := u16m (s.under + update), count := u8m (s.count + update) }
      (pool1, node, under1, count1)

/-- `SNET_CONTEXT_ENCODE(context, …, update, minimum)`:
look up / install `value` in the tree of context `ctx`. -/
def context_encode (fuel : Nat) (pool : Array Sym) (ctx value update minimum : Nat) :
    Array Sym × Nat × Nat × Nat :=
  let under0 := u16m (value * minimum)
  let count0 := minimum
  let s := getSym pool ctx
  if s.symbols = 0 then
    let newIdx := pool.size
    let pool1 := symbol_create pool value update
    (setSym pool1 ctx { getSym pool1 ctx with symbols := u16m (newIdx - ctx) },
      newIdx, under0, count0)
  else
    context_encode_walk fuel pool (ctx + s.symbols) value update under0 count0

/-- Range-encoder state: `encodeLow`/`encodeRange` (both `snet_uint32`),
the bytes written so far, the output limit and whether
`SNET_RANGE_CODER_OUTPUT` ran out of space (C returns 0 then). -/
structure RCEnc where
  low : Nat
  range : Nat
  out : List Nat
  outLimit : Nat
  failed : Bool
  deriving Repr, DecidableEq

/-- `SNET_RANGE_CODER_OUTPUT(value)` for the encoder. -/
def rc_output (rc : RCEnc) (b : Nat) : RCEnc :=
  if rc.outLimit ≤ rc.out.length then { rc with failed := true }
  else { rc with out := rc.out ++ [u8m b] }

/-- The normalization loop shared by `SNET_RANGE_CODER_ENCODE` (the
`for (;;)` emitting settled top bytes).  The C loop terminates in a few
iterations; the fuel of 64 is never exhausted on reachable states. -/
def rc_normalize (fuel : Nat) (rc : RCEnc) : RCEnc :=
  match fuel with
  | 0 => { rc with failed := true }
  | fuel + 1 =>
    let rc1 :=
      if Nat.xor rc.low ((rc.low + rc.range) % U32) ≥ SNET_RANGE_CODER_TOP then
        if rc.range ≥ SNET_RANGE_CODER_BOTTOM then none
        else some { rc with
          range := Nat.land ((U32 - rc.low % U32) % U32) (SNET_RANGE_CODER_BOTTOM - 1) }
      else some rc
    match rc1 with
    | none => rc
    | some rc2 =>
      let rc3 := rc_output rc2 (rc2.low / 16777216)
      rc_normalize fuel { rc3 with range := (rc3.range * 256) % U32, low := (rc3.low * 256) % U32 }

/-- `SNET_RANGE_CODER_ENCODE(under, count, total)`. -/
def rc_encode (rc : RCEnc) (under count total : Nat) : RCEnc :=
  let range1 := rc.range / total
  let low1 := (rc.low + under * range1) % U32
  let range2 := (range1 * count) % U32
  rc_normalize 64 { rc with low := low1, range := range2 }

/-- `SNET_RANGE_CODER_FLUSH` (at most four bytes of `encodeLow`). -/
def rc_flush (fuel : Nat) (rc : RCEnc) : RCEnc :=
  match fuel with
  | 0 => rc
  | fuel + 1 =>
    if rc.low ≠ 0 then
      let rc1 := rc_output rc (rc.low / 16777216)
      rc_flush fuel { rc1 with low := (rc1.low * 256) % U32 }
    else rc

/-- Where the roaming `parent` pointer of the coder loops points: at the
local `predicted` variable, or at the `parent` field of pool symbol `i`. -/
inductive PRef where
  | pred
  | sym (i : Nat)
  deriving Repr, DecidableEq

/-- `*parent = symIdx`: write through the roaming parent pointer. -/
def writeParent (pool : Array Sym) (pref : PRef) (predictedV symIdx : Nat) :
    Array Sym × Nat :=
  match pref with
  | PRef.pred => (pool, symIdx)
  | PRef.sym i => (setSym pool i { getSym pool i with parent := symIdx }, predictedV)

/-- The subcontext loop of `snet_range_coder_compress` (the `for` over
`subcontext` from `&symbols[predicted]` up to but excluding `root`):
encodes `value` in the deepest context that knows it, as escapes in the
contexts that do not.  Returns (pool, predicted, parent ref, encoder,
matched), `matched` meaning `count > 0` ended the walk
(`goto nextInput`). -/
def compress_subcontexts (fuel : Nat) (pool : Array Sym) (pref : PRef)
    (predictedV subctx value : Nat) (rc : RCEnc) :
    Array Sym × Nat × PRef × RCEnc × Bool :=
  match fuel with
  | 0 => (pool, predictedV, pref, { rc with failed := true }, false)
  | fuel + 1 =>
    if subctx = 0 then (pool, predictedV, pref, rc, false)
    else
      let er := context_encode (pool.size + 1) pool subctx value SNET_SUBCONTEXT_SYMBOL_DELTA 0
      let pool1 := er.1
      let symIdx := er.2.1
      let under := er.2.2.1
      let count := er.2.2.2
      let wp := writeParent pool1 pref predictedV symIdx
      let pool2 := wp.1
      let predicted2 := wp.2
      let pref2 := PRef.sym symIdx
      let sC := getSym pool2 subctx
      let total := sC.total
      if count > 0 then
        let rc1 := rc_encode rc (sC.escapes + under) count total
        let pool3 := setSym pool2 subctx
          { sC with total := u16m (sC.total + SNET_SUBCONTEXT_SYMBOL_DELTA) }
        let pool4 :=
          if count > 255 - 2 * SNET_SUBCONTEXT_SYMBOL_DELTA ∨
              (getSym pool3 subctx).total > SNET_RANGE_CODER_BOTTOM - 256 then
            context_rescale pool3 subctx 0
          else pool3
        (pool4, predicted2, pref2, rc1, true)
      else
        let rc1 :=
          if sC.escapes > 0 ∧ sC.escapes < total then rc_encode rc 0 sC.escapes total
          else rc
        let pool3 := setSym pool2 subctx
          { sC with escapes := u16m (sC.escapes + SNET_SUBCONTEXT_ESCAPE_DELTA),
                    total := u16m (sC.total + SNET_SUBCONTEXT_ESCAPE_DELTA +
                      SNET_SUBCONTEXT_SYMBOL_DELTA) }
        let pool4 :=
          if count > 255 - 2 * SNET_SUBCONTEXT_SYMBOL_DELTA ∨
              (getSym pool3 subctx).total > SNET_RANGE_CODER_BOTTOM - 256 then
            context_rescale pool3 subctx 0
          else pool3
        compress_subcontexts fuel pool4 pref2 predicted2 ((getSym pool4 subctx).parent)
          value rc1

/-- The whole coder state threaded through `compress`/`decompress`: the
symbol pool plus the `predicted` context offset and the current
`order`. -/
structure CoderState where
  pool : Array Sym
  predicted : Nat
  order : Nat
  deriving Repr, DecidableEq

/-- `SNET_RANGE_CODER_FREE_SYMBOLS`: hard reset of the coder when the
pool is nearly full (`nextSymbol >= 4096 - SNET_SUBCONTEXT_ORDER`). -/
def free_symbols (st : CoderState) : CoderState :=
  if st.pool.size ≥ 4096 - SNET_SUBCONTEXT_ORDER then
    ⟨context_create_root SNET_CONTEXT_ESCAPE_MINIMUM SNET_CONTEXT_SYMBOL_MINIMUM, 0, 0⟩
  else st

/-- One iteration of the `for (;;)` of `snet_range_coder_compress` for
input byte `value`: subcontext walk, root encode when unmatched, then
the `nextInput` bookkeeping and the pool-overflow reset. -/
def compress_step (st : CoderState) (rc : RCEnc) (value : Nat) : CoderState × RCEnc :=
  let sub := compress_subcontexts (st.pool.size + 2) st.pool PRef.pred st.predicted
    st.predicted value rc
  let pool := sub.1
  let predicted1 := sub.2.1
  let pref := sub.2.2.1
  let rc1 := sub.2.2.2.1
  let matched := sub.2.2.2.2
  let stepEnd := fun (pool : Array Sym) (predicted1 : Nat) (rc : RCEnc) =>
    let st1 : CoderState :=
      if st.order ≥ SNET_SUBCONTEXT_ORDER then
        ⟨pool, (getSym pool predicted1).parent, st.order⟩
      else ⟨pool, predicted1, st.order + 1⟩
    (free_symbols st1, rc)
  if matched then stepEnd pool predicted1 rc1
  else
    let er := context_encode (pool.size + 1) pool 0 value SNET_CONTEXT_SYMBOL_DELTA
      SNET_CONTEXT_SYMBOL_MINIMUM
    let pool1 := er.1
    let symIdx := er.2.1
    let under := er.2.2.1
    let count := er.2.2.2
    let wp := writeParent pool1 pref predicted1 symIdx
    let pool2 := wp.1
    let predicted2 := wp.2
    let root := getSym pool2 0
    let total := root.total
    let rc2 := rc_encode rc1 (root.escapes + under) count total
    let pool3 := setSym pool2 0 { root with total := u16m (root.total + SNET_CONTEXT_SYMBOL_DELTA) }
    let pool4 :=
      if count > 255 - 2 * SNET_CONTEXT_SYMBOL_DELTA + SNET_CONTEXT_SYMBOL_MINIMUM ∨
          (getSym pool3 0).total > SNET_RANGE_CODER_BOTTOM - 256 then
        context_rescale pool3 0 SNET_CONTEXT_SYMBOL_MINIMUM
      else pool3
    stepEnd pool4 predicted2 rc2

/-- The input loop of `snet_range_coder_compress`. -/
def compress_loop (input : List Nat) (st : CoderState) (rc : RCEnc) : CoderState × RCEnc :=
  match input with
  | [] => (st, rc)
  | v :: rest =>
    let sr := compress_step st rc (u8m v)
    compress_loop rest sr.1 sr.2

/-- `snet_range_coder_compress` on a fresh coder (as the engine resets it
per datagram), for a single input buffer: `none` models the `return 0`
paths (empty input or output-buffer overflow), `some out` the compressed
byte string. -/
def snet_range_coder_compress (input : List Nat) (outLimit : Nat) : Option (List Nat) :=
  if input.isEmpty then none
  else
    let st : CoderState :=
      ⟨context_create_root SNET_CONTEXT_ESCAPE_MINIMUM SNET_CONTEXT_SYMBOL_MINIMUM, 0, 0⟩
    let rc : RCEnc := ⟨0, U32 - 1, [], outLimit, false⟩
    let r := compress_loop input st rc
    let rc2 := rc_flush 5 r.2
    if rc2.failed then none else some rc2.out

/-- Range-decoder state: `decodeLow`, `decodeCode`, `decodeRange` (all
`snet_uint32`) and the input bytes not yet consumed. -/
structure RCDec where
  low : Nat
  code : Nat
  range : Nat
  input : List Nat
  deriving Repr, DecidableEq

/-- `SNET_RANGE_CODER_SEED`: fill `decodeCode` from up to four input
bytes. -/
def rcd_seed : List Nat → Nat × List Nat
  | [] => (0, [])
  | [a] => (u8m a * 16777216, [])
  | [a, b] => (u8m a * 16777216 + u8m b * 65536, [])
  | [a, b, c] => (u8m a * 16777216 + u8m b * 65536 + u8m c * 256, [])
  | a :: b :: c :: d :: rest => (u8m a * 16777216 + u8m b * 65536 + u8m c * 256 + u8m d, rest)

/-- `SNET_RANGE_CODER_READ(total)`: divides `decodeRange` by `total`
in place and returns the current frequency offset. -/
def rcd_read (d : RCDec) (total : Nat) : RCDec × Nat :=
  let range1 := d.range / total
  ({ d with range := range1 }, sub32 d.code d.low / range1)

/-- The normalization loop of `SNET_RANGE_CODER_DECODE`, consuming input
bytes into `decodeCode` (an exhausted input shifts in zeroes). -/
def rcd_normalize (fuel : Nat) (d : RCDec) : RCDec :=
  match fuel with
  | 0 => d
  | fuel + 1 =>
    let d1 :=
      if Nat.xor d.low ((d.low + d.range) % U32) ≥ SNET_RANGE_CODER_TOP then
        if d.range ≥ SNET_RANGE_CODER_BOTTOM then none
        else some { d with
          range := Nat.land ((U32 - d.low % U32) % U32) (SNET_RANGE_CODER_BOTTOM - 1) }
      else some d
    match d1 with
    | none => d
    | some d2 =>
      let db :=
        match d2.input with
        | [] => ((d2.code * 256) % U32, ([] : List Nat))
        | b :: rest => ((d2.code * 256) % U32 + u8m b, rest)
      rcd_normalize fuel { d2 with code := db.1, input := db.2,
                                   range := (d2.range * 256) % U32,
                                   low := (d2.low * 256) % U32 }

/-- `SNET_RANGE_CODER_DECODE(under, count, total)` (after a
`SNET_RANGE_CODER_READ` already divided the range). -/
def rcd_decode (d : RCDec) (under count : Nat) : RCDec :=
  rcd_normalize 64 { d with low := (d.low + under * d.range) % U32,
                            range := (d.range * count) % U32 }

/-- The tree walk of `SNET_CONTEXT_TRY_DECODE` (no creation: reaching a
fringe means the datagram is corrupt and the whole decompression returns
0, modelled as `none`). Returns (pool, value, under, count, symbol). -/
def context_try_decode_walk (fuel : Nat) (pool : Array Sym) (node code under count update minimum : Nat) :
    Option (Array Sym × Nat × Nat × Nat × Nat) :=
  match fuel with
  | 0 => none
  | fuel + 1 =>
    let s := getSym pool node
    let after := u16m (under + s.under + (s.value + 1) * minimum)
    let before := u16m (s.count + minimum)
    if code ≥ after then
      let under1 := u16m (under + s.under)
      if s.right ≠ 0 then
        context_try_decode_walk fuel pool (node + s.right) code under1 count update minimum
      else none
    else if code < after - before then
      let pool1 := setSym pool node { s with under := u16m (s.under + update) }
      if s.left ≠ 0 then
        context_try_decode_walk fuel pool1 (node + s.left) code under count update minimum
      else none
    else
      let count1 := u16m (count + s.count)
      let under1 := (after + 65536 - before) % 65536
      let pool1 := setSym pool node
        { s with under := u16m (s.under + update), count := u8m (s.count + update) }
      some (pool1, s.value, under1, count1, node)

/-- `SNET_CONTEXT_TRY_DECODE(context, …)`: an empty context also fails
(`createRoot` is `return 0` in the try variant). -/
def context_try_decode (fuel : Nat) (pool : Array Sym) (ctx code update minimum : Nat) :
    Option (Array Sym × Nat × Nat × Nat × Nat) :=
  let s := getSym pool ctx
  if s.symbols = 0 then none
  else context_try_decode_walk fuel pool (ctx + s.symbols) code 0 minimum update minimum

/-- The tree walk of `SNET_CONTEXT_ROOT_DECODE`, creating the decoded
symbol at the fringe exactly as the encoder would have; `none` only on
fuel exhaustion, which reachable states never hit. -/
def context_root_decode_walk (fuel : Nat) (pool : Array Sym) (node code under count update minimum : Nat) :
    Option (Array Sym × Nat × Nat × Nat × Nat) :=
  match fuel with
  | 0 => none
  | fuel + 1 =>
    let s := getSym pool node
    let after := u16m (under + s.under + (s.value + 1) * minimum)
    let before := u16m (s.count + minimum)
    if code ≥ after then
      let under1 := u16m (under + s.under)
      if s.right ≠ 0 then
        context_root_decode_walk fuel pool (node + s.right) code under1 count update minimum
      else
        let value := u8m (s.value + 1 + (code - after) / minimum)
        let under2 := u16m (code + 65536 - (code - after) % minimum)
        let newIdx := pool.size
        let pool1 := symbol_create pool value update
        let pool2 := setSym pool1 node { getSym pool1 node with right := u16m (newIdx - node) }
        some (pool2, value, under2, count, newIdx)
    else if code < after - before then
      let pool1 := setSym pool node { s with under := u16m (s.under + update) }
      if s.left ≠ 0 then
        context_root_decode_walk fuel pool1 (node + s.left) code under count update minimum
      else
        let k := (after - before - code - 1) / minimum
        let value := (((s.value : Int) - 1 - (k : Int)) % 256).toNat
        let under2 := u16m (code + 65536 - (after - before - code - 1) % minimum)
        let newIdx := pool1.size
        let pool2 := symbol_create pool1 value update
        let pool3 := setSym pool2 node { getSym pool2 node with left := u16m (newIdx - node) }
        some (pool3, value, under2, count, newIdx)
    else
      let count1 := u16m (count + s.count)
      let under1 := (after + 65536 - before) % 65536
      let pool1 := setSym pool node
        { s with under := u16m (s.under + update), count := u8m (s.count + update) }
      some (pool1, s.value, under1, count1, node)

/-- `SNET_CONTEXT_ROOT_DECODE(context, …)` including the `createRoot`
case for an empty context. -/
def context_root_decode (fuel : Nat) (pool : Array Sym) (ctx code update minimum : Nat) :
    Option (Array Sym × Nat × Nat × Nat × Nat) :=
  let s := getSym pool ctx
  if s.symbols = 0 then
    let value := u8m (code / minimum)
    let under := u16m (code + 65536 - code % minimum)
    let newIdx := pool.size
    let pool1 := symbol_create pool value update
    let pool2 := setSym pool1 ctx { getSym pool1 ctx with symbols := u16m (newIdx - ctx) }
    some (pool2, value, under, minimum, newIdx)
  else context_root_decode_walk fuel pool (ctx + s.symbols) code 0 minimum update minimum

/-- Result of the decoder's subcontext loop. -/
inductive DecCtxRes where
  | fail
  | toRoot (pool : Array Sym) (d : RCDec)
  | found (pool : Array Sym) (d : RCDec) (subctx value bottom : Nat)
  deriving Repr

/-- The subcontext loop of `snet_range_coder_decompress`: walk the parent
chain from `predicted`, skipping contexts that cannot have encoded
anything (`escapes == 0` or `escapes >= total`), decoding an escape or
the symbol otherwise (the local `code` is a `snet_uint16`). -/
def decompress_subcontexts (fuel : Nat) (pool : Array Sym) (subctx : Nat) (d : RCDec) :
    DecCtxRes :=
  match fuel with
  | 0 => DecCtxRes.fail
  | fuel + 1 =>
    if subctx = 0 then DecCtxRes.toRoot pool d
    else
      let s := getSym pool subctx
      if s.escapes = 0 then decompress_subcontexts fuel pool s.parent d
      else
        let total := s.total
        if s.escapes ≥ total then decompress_subcontexts fuel pool s.parent d
        else
          let rd := rcd_read d total
          let d1 := rd.1
          let code := u16m rd.2
          if code < s.escapes then
            let d2 := rcd_decode d1 0 s.escapes
            decompress_subcontexts fuel pool s.parent d2
          else
            let code2 := code - s.escapes
            match context_try_decode (pool.size + 1) pool subctx code2
                SNET_SUBCONTEXT_SYMBOL_DELTA 0 with
            | none => DecCtxRes.fail
            | some (pool1, value, under, count, symIdx) =>
              let d2 := rcd_decode d1 (s.escapes + under) count
              let sC := getSym pool1 subctx
              let pool2 := setSym pool1 subctx
                { sC with total := u16m (sC.total + SNET_SUBCONTEXT_SYMBOL_DELTA) }
              let pool3 :=
                if count > 255 - 2 * SNET_SUBCONTEXT_SYMBOL_DELTA ∨
                    (getSym pool2 subctx).total > SNET_RANGE_CODER_BOTTOM - 256 then
                  context_rescale pool2 subctx 0
                else pool2
              DecCtxRes.found pool3 d2 subctx value symIdx

/-- Result of the decoder's root handling. -/
inductive RootRes where
  | fail
  | finished
  | decoded (pool : Array Sym) (d : RCDec) (value bottom : Nat)
  deriving Repr

/-- The root-context decode of `snet_range_coder_decompress`: a root
escape ends the stream (`break`), otherwise the symbol is decoded
(creating it when new) and the root adapted. -/
def decompress_root (pool : Array Sym) (d : RCDec) : RootRes :=
  let root := getSym pool 0
  let total := root.total
  let rd := rcd_read d total
  let d1 := rd.1
  let code := u16m rd.2
  if code < root.escapes then RootRes.finished
  else
    let code2 := code - root.escapes
    match context_root_decode (pool.size + 1) pool 0 code2 SNET_CONTEXT_SYMBOL_DELTA
        SNET_CONTEXT_SYMBOL_MINIMUM with
    | none => RootRes.fail
    | some (pool1, value, under, count, symIdx) =>
      let d2 := rcd_decode d1 (root.escapes + under) count
      let r1 := getSym pool1 0
      let pool2 := setSym pool1 0 { r1 with total := u16m (r1.total + SNET_CONTEXT_SYMBOL_DELTA) }
      let pool3 :=
        if count > 255 - 2 * SNET_CONTEXT_SYMBOL_DELTA + SNET_CONTEXT_SYMBOL_MINIMUM ∨
            (getSym pool2 0).total > SNET_RANGE_CODER_BOTTOM - 256 then
          context_rescale pool2 0 SNET_CONTEXT_SYMBOL_MINIMUM
        else pool2
      RootRes.decoded pool3 d2 value symIdx

/-- The `patchContexts` loop of `snet_range_coder_decompress`: walk from
`predicted` down to (excluding) the context where the symbol was found,
installing the decoded value in each deeper context with the same
adaptation the encoder applied there. -/
def patch_contexts (fuel : Nat) (pool : Array Sym) (pref : PRef)
    (predictedV patchIdx subctxIdx value : Nat) : Array Sym × Nat × PRef :=
  match fuel with
  | 0 => (pool, predictedV, pref)
  | fuel + 1 =>
    if patchIdx = subctxIdx then (pool, predictedV, pref)
    else
      let er := context_encode (pool.size + 1) pool patchIdx value
        SNET_SUBCONTEXT_SYMBOL_DELTA 0
      let pool1 := er.1
      let symIdx := er.2.1
      let count := er.2.2.2
      let wp := writeParent pool1 pref predictedV symIdx
      let pool2 := wp.1
      let predicted2 := wp.2
      let sC := getSym pool2 patchIdx
      let pool3 :=
        if count = 0 then
          setSym pool2 patchIdx
            { sC with escapes := u16m (sC.escapes + SNET_SUBCONTEXT_ESCAPE_DELTA),
                      total := u16m (sC.total + SNET_SUBCONTEXT_ESCAPE_DELTA +
                        SNET_SUBCONTEXT_SYMBOL_DELTA) }
        else
          setSym pool2 patchIdx { sC with total := u16m (sC.total + SNET_SUBCONTEXT_SYMBOL_DELTA) }
      let pool4 :=
        if count > 255 - 2 * SNET_SUBCONTEXT_SYMBOL_DELTA ∨
            (getSym pool3 patchIdx).total > SNET_RANGE_CODER_BOTTOM - 256 then
          context_rescale pool3 patchIdx 0
        else pool3
      patch_contexts fuel pool4 (PRef.sym symIdx) predicted2
        ((getSym pool4 patchIdx).parent) subctxIdx value

/-- The main `for (;;)` of `snet_range_coder_decompress`: one iteration
per output byte, ending at a root escape; each decoded byte patches the
deeper contexts, repoints the `predicted` chain at the decoded symbol
(`*parent = bottom`), emits the byte and advances the order, resetting
the pool when it is nearly full. -/
def decompress_loop (fuel : Nat) (st : CoderState) (d : RCDec) (acc : List Nat)
    (outLimit : Nat) : Option (List Nat) :=
  match fuel with
  | 0 => none
  | fuel + 1 =>
    let step := fun (pool : Array Sym) (d2 : RCDec) (subctxIdx value bottom : Nat) =>
      let pc := patch_contexts (pool.size + 2) pool PRef.pred st.predicted st.predicted
        subctxIdx value
      let pool3 := pc.1
      let predicted1 := pc.2.1
      let pref := pc.2.2
      let wp := writeParent pool3 pref predicted1 bottom
      let pool4 := wp.1
      let predicted2 := wp.2
      if outLimit ≤ acc.length then none
      else
        let st1 : CoderState :=
          if st.order ≥ SNET_SUBCONTEXT_ORDER then
            ⟨pool4, (getSym pool4 predicted2).parent, st.order⟩
          else ⟨pool4, predicted2, st.order + 1⟩
        decompress_loop fuel (free_symbols st1) d2 (acc ++ [value]) outLimit
    match decompress_subcontexts (st.pool.size + 2) st.pool st.predicted d with
    | DecCtxRes.fail => none
    | DecCtxRes.found pool1 d1 subctxIdx value bottom => step pool1 d1 subctxIdx value bottom
    | DecCtxRes.toRoot pool1 d1 =>
      match decompress_root pool1 d1 with
      | RootRes.fail => none
      | RootRes.finished => some acc
      | RootRes.decoded pool2 d2 value bottom => step pool2 d2 0 value bottom

/-- `snet_range_coder_decompress` on a fresh coder, `none` modelling the
`return 0` paths (empty input, corrupt data, output-buffer overflow). -/
def snet_range_coder_decompress (input : List Nat) (outLimit : Nat) : Option (List Nat) :=
  if input.isEmpty then none
  else
    let pool := context_create_root SNET_CONTEXT_ESCAPE_MINIMUM SNET_CONTEXT_SYMBOL_MINIMUM
    let sd := rcd_seed input
    let d : RCDec := ⟨0, sd.1, U32 - 1, sd.2⟩
    decompress_loop (outLimit + 1) ⟨pool, 0, 0⟩ d [] outLimit

set_option maxRecDepth 100000 in
/-- Concrete kernel-checked round trip of the embedded range coder: a
low-entropy four-byte payload compresses and decompresses back to
itself. -/
theorem snet_range_coder_roundtrip_ex1 :
    (snet_range_coder_compress [65, 65, 65, 65] 64).bind
      (fun c => snet_range_coder_decompress c 12) = some [65, 65, 65, 65] := by
  decide

set_option maxRecDepth 100000 in
/-- Concrete kernel-checked round trip of the embedded range coder on a
30-byte mixed payload (repeats, escapes and fresh symbols, order-2
context reuse). -/
theorem snet_range_coder_roundtrip_ex2 :
    (snet_range_coder_compress [72, 101, 108, 108, 111, 44, 32, 119, 111, 114, 108, 100, 33,
        72, 101, 108, 108, 111, 44, 32, 119, 111, 114, 108, 100, 33, 0, 255, 1, 254] 124).bind
      (fun c => snet_range_coder_decompress c 38) =
      some [72, 101, 108, 108, 111, 44, 32, 119, 111, 114, 108, 100, 33,
        72, 101, 108, 108, 111, 44, 32, 119, 111, 114, 108, 100, 33, 0, 255, 1, 254] := by
  decide

end SNet
